import Mathlib

/-!
A shallow embedding of the 2D segment-geometry utility of `juce_Line.h`
(`Line<ValueType>`), with the coordinate type `ValueType` modelled as `ℝ`
(the class is designed for `float`/`double`; we reason in exact arithmetic).
Booleans computed from real-number comparisons are modelled as `Prop`, and
the C++ out-parameter style (`bool f(..., Point& out)`) is modelled by
returning a pair.

Definitions are transcribed from `juce_Line.h` and
`juce_MathsFunctions.h`; proofs about them follow.
-/

open Classical

namespace JuceGeometry

/-- Modelled from the spec: `juce_Point.h` is not among the sources, so the
2D point type is taken from the spec's data model — an ordered pair `(x, y)`
of coordinates, a pure value type with component-wise equality. -/
@[ext] structure Point where
  x : ℝ
  y : ℝ

/-- Modelled from the spec: component-wise point subtraction (`operator-`). -/
noncomputable def Point.sub (a b : Point) : Point := ⟨a.x - b.x, a.y - b.y⟩

/-- Modelled from the spec: component-wise point addition (`operator+`). -/
noncomputable def Point.add (a b : Point) : Point := ⟨a.x + b.x, a.y + b.y⟩

/-- Modelled from the spec: multiplication of a point by a scalar
(`operator*`). -/
noncomputable def Point.smul (a : Point) (c : ℝ) : Point := ⟨a.x * c, a.y * c⟩

/-- Modelled from the spec: division of a point by a scalar (`operator/`). -/
noncomputable def Point.divScalar (a : Point) (c : ℝ) : Point := ⟨a.x / c, a.y / c⟩

/-- Modelled from the spec: `Point::isOrigin`, true when both coordinates
are zero. -/
def Point.isOrigin (a : Point) : Prop := a.x = 0 ∧ a.y = 0

/-- Modelled from the spec: `Point::withX`, a copy with a replaced
x-coordinate. -/
def Point.withX (a : Point) (newX : ℝ) : Point := ⟨newX, a.y⟩

/-- Modelled from the spec: `Point::withY`, a copy with a replaced
y-coordinate. -/
def Point.withY (a : Point) (newY : ℝ) : Point := ⟨a.x, newY⟩

/-- Modelled from the spec: `Point::getDistanceFrom`, the Euclidean distance
between two points (`juce_hypot` of the coordinate differences). -/
noncomputable def Point.getDistanceFrom (a b : Point) : ℝ :=
  Real.sqrt ((a.x - b.x) ^ 2 + (a.y - b.y) ^ 2)

/-- The segment type of `juce_Line.h`: a start point and an end point. -/
@[ext] structure Line where
  start : Point
  «end» : Point

/-- Transcribed from `juce_MathsFunctions.h`: `jmin (a, b) = (b < a) ? b : a`. -/
noncomputable def jmin (a b : ℝ) : ℝ := if b < a then b else a

/-- Transcribed from `juce_MathsFunctions.h`: `jlimit` clamps a value to
`[lowerLimit, upperLimit]` via two comparisons. -/
noncomputable def jlimit (lowerLimit upperLimit valueToConstrain : ℝ) : ℝ :=
  if valueToConstrain < lowerLimit then lowerLimit
  else if upperLimit < valueToConstrain then upperLimit
  else valueToConstrain

/-- `Line::getLength`: the Euclidean distance from `start` to `end`. -/
noncomputable def getLength (l : Line) : ℝ := l.start.getDistanceFrom l.«end»

/-- `Line::getPointAlongLine` (one-argument overload, lines 190–193):
`start + (end - start) * (distanceFromStart / getLength())`.
Note the source has no branch guarding `getLength() == 0`. -/
noncomputable def getPointAlongLine (l : Line) (distanceFromStart : ℝ) : Point :=
  l.start.add ((l.«end».sub l.start).smul (distanceFromStart / getLength l))

/-- `Line::getPointAlongLine` (two-argument overload, lines 208–219), which
does branch on `length <= 0` and returns `start` in that case. -/
noncomputable def getPointAlongLinePerpendicular
    (l : Line) (distanceFromStart perpendicularDistance : ℝ) : Point :=
  if Real.sqrt ((l.«end».sub l.start).x * (l.«end».sub l.start).x
      + (l.«end».sub l.start).y * (l.«end».sub l.start).y) ≤ 0 then l.start
  else
    ⟨l.start.x + ((l.«end».sub l.start).x * distanceFromStart
        - (l.«end».sub l.start).y * perpendicularDistance)
        / Real.sqrt ((l.«end».sub l.start).x * (l.«end».sub l.start).x
            + (l.«end».sub l.start).y * (l.«end».sub l.start).y),
     l.start.y + ((l.«end».sub l.start).y * distanceFromStart
        + (l.«end».sub l.start).x * perpendicularDistance)
        / Real.sqrt ((l.«end».sub l.start).x * (l.«end».sub l.start).x
            + (l.«end».sub l.start).y * (l.«end».sub l.start).y)⟩

/-- `Line::getPointAlongLineProportionally`:
`start + (end - start) * proportionOfLength`. -/
noncomputable def getPointAlongLineProportionally (l : Line) (proportionOfLength : ℝ) : Point :=
  l.start.add ((l.«end».sub l.start).smul proportionOfLength)

/-- The squared length `delta.x * delta.x + delta.y * delta.y` computed
(identically) by `getDistanceFromPoint` and
`findNearestProportionalPositionTo`; the source's local variable is called
`length` although it holds the squared length. -/
noncomputable def lengthSq (l : Line) : ℝ :=
  (l.«end».sub l.start).x * (l.«end».sub l.start).x
    + (l.«end».sub l.start).y * (l.«end».sub l.start).y

/-- The projection fraction `prop` computed (identically) by
`getDistanceFromPoint` and `findNearestProportionalPositionTo`:
`((target.x - start.x) * delta.x + (target.y - start.y) * delta.y) / length`. -/
noncomputable def prop (l : Line) (target : Point) : ℝ :=
  ((target.x - l.start.x) * (l.«end».sub l.start).x
    + (target.y - l.start.y) * (l.«end».sub l.start).y) / lengthSq l

/-- `Line::getDistanceFromPoint` (lines 247–278): the out-parameter
`pointOnLine` and the returned distance, modelled as the pair
`(distance, pointOnLine)`. -/
noncomputable def getDistanceFromPoint (l : Line) (targetPoint : Point) : ℝ × Point :=
  if 0 < lengthSq l then
    if 0 ≤ prop l targetPoint ∧ prop l targetPoint ≤ 1 then
      (targetPoint.getDistanceFrom
          (l.start.add ((l.«end».sub l.start).smul (prop l targetPoint))),
       l.start.add ((l.«end».sub l.start).smul (prop l targetPoint)))
    else if targetPoint.getDistanceFrom l.start < targetPoint.getDistanceFrom l.«end» then
      (targetPoint.getDistanceFrom l.start, l.start)
    else
      (targetPoint.getDistanceFrom l.«end», l.«end»)
  else if targetPoint.getDistanceFrom l.start < targetPoint.getDistanceFrom l.«end» then
    (targetPoint.getDistanceFrom l.start, l.start)
  else
    (targetPoint.getDistanceFrom l.«end», l.«end»)

/-- `Line::findNearestProportionalPositionTo` (lines 288–297):
`length <= 0 ? 0 : jlimit 0 1 prop`. -/
noncomputable def findNearestProportionalPositionTo (l : Line) (point : Point) : ℝ :=
  if lengthSq l ≤ 0 then 0 else jlimit 0 1 (prop l point)

/-- `Line::findNearestPointTo`:
`getPointAlongLineProportionally (findNearestProportionalPositionTo point)`. -/
noncomputable def findNearestPointTo (l : Line) (point : Point) : Point :=
  getPointAlongLineProportionally l (findNearestProportionalPositionTo l point)

/-- `Line::isPointAbove` (lines 313–318):
`start.x != end.x && point.y < (end.y - start.y) * (point.x - start.x) / (end.x - start.x) + start.y`. -/
noncomputable def isPointAbove (l : Line) (point : Point) : Prop :=
  l.start.x ≠ l.«end».x ∧
    point.y < ((l.«end».y - l.start.y) * (point.x - l.start.x))
        / (l.«end».x - l.start.x) + l.start.y

/-- `Line::withShortenedStart`:
`Line (getPointAlongLine (jmin distanceToShortenBy (getLength())), end)`. -/
noncomputable def withShortenedStart (l : Line) (distanceToShortenBy : ℝ) : Line :=
  ⟨getPointAlongLine l (jmin distanceToShortenBy (getLength l)), l.«end»⟩

/-- The local `divisor = d1.x * d2.y - d2.x * d1.y` of
`Line::findIntersection`, where `d1 = p2 - p1` and `d2 = p4 - p3`. -/
noncomputable def divisor (p1 p2 p3 p4 : Point) : ℝ :=
  (p2.sub p1).x * (p4.sub p3).y - (p4.sub p3).x * (p2.sub p1).y

/-- The local `along1 = ((p1.y - p3.y) * d2.x - (p1.x - p3.x) * d2.y) / divisor`
of `Line::findIntersection` (line 394). -/
noncomputable def along1 (p1 p2 p3 p4 : Point) : ℝ :=
  ((p1.y - p3.y) * (p4.sub p3).x - (p1.x - p3.x) * (p4.sub p3).y)
    / divisor p1 p2 p3 p4

/-- The local `along2 = ((p1.y - p3.y) * d1.x - (p1.x - p3.x) * d1.y) / divisor`
of `Line::findIntersection` (line 400). -/
noncomputable def along2 (p1 p2 p3 p4 : Point) : ℝ :=
  ((p1.y - p3.y) * (p2.sub p1).x - (p1.x - p3.x) * (p2.sub p1).y)
    / divisor p1 p2 p3 p4

/-- `Line::findIntersection` (lines 346–402), with the out-parameter
`intersection` and the returned `bool` modelled as a `Point × Prop` pair.
The early `return false` when `along1` is out of range (before `along2` is
computed) appears as the penultimate branch. -/
noncomputable def findIntersection (p1 p2 p3 p4 : Point) : Point × Prop :=
  if p2 = p3 then (p2, True)
  else if divisor p1 p2 p3 p4 = 0 then
    if ¬ ((p2.sub p1).isOrigin ∨ (p4.sub p3).isOrigin) then
      if (p2.sub p1).y = 0 ∧ (p4.sub p3).y ≠ 0 then
        (p1.withX (p3.x + (p1.y - p3.y) / (p4.sub p3).y * (p4.sub p3).x),
          0 ≤ (p1.y - p3.y) / (p4.sub p3).y ∧ (p1.y - p3.y) / (p4.sub p3).y ≤ 1)
      else if (p4.sub p3).y = 0 ∧ (p2.sub p1).y ≠ 0 then
        (p3.withX (p1.x + (p3.y - p1.y) / (p2.sub p1).y * (p2.sub p1).x),
          0 ≤ (p3.y - p1.y) / (p2.sub p1).y ∧ (p3.y - p1.y) / (p2.sub p1).y ≤ 1)
      else if (p2.sub p1).x = 0 ∧ (p4.sub p3).x ≠ 0 then
        (p1.withY (p3.y + (p1.x - p3.x) / (p4.sub p3).x * (p4.sub p3).y),
          0 ≤ (p1.x - p3.x) / (p4.sub p3).x ∧ (p1.x - p3.x) / (p4.sub p3).x ≤ 1)
      else if (p4.sub p3).x = 0 ∧ (p2.sub p1).x ≠ 0 then
        (p3.withY (p1.y + (p3.x - p1.x) / (p2.sub p1).x * (p2.sub p1).y),
          0 ≤ (p3.x - p1.x) / (p2.sub p1).x ∧ (p3.x - p1.x) / (p2.sub p1).x ≤ 1)
      else ((p2.add p3).divScalar 2, False)
    else ((p2.add p3).divScalar 2, False)
  else if along1 p1 p2 p3 p4 < 0 ∨ 1 < along1 p1 p2 p3 p4 then
    (p1.add ((p2.sub p1).smul (along1 p1 p2 p3 p4)), False)
  else
    (p1.add ((p2.sub p1).smul (along1 p1 p2 p3 p4)),
      0 ≤ along2 p1 p2 p3 p4 ∧ along2 p1 p2 p3 p4 ≤ 1)

/-- `Line::intersects`: `findIntersection (start, end, line.start, line.end,
intersection)`, with the out-parameter and boolean result as a pair. -/
noncomputable def intersects (l other : Line) : Point × Prop :=
  findIntersection l.start l.«end» other.start other.«end»

/-- In the parallel branch (`divisor = 0`), the first axis-aligned condition
`d1.y = 0 ∧ d2.y ≠ 0` forces `d1` to be the origin. -/
theorem cond_dy1_forces_origin (p1 p2 p3 p4 : Point)
    (hdiv : divisor p1 p2 p3 p4 = 0)
    (h1 : (p2.sub p1).y = 0) (h2 : (p4.sub p3).y ≠ 0) :
    (p2.sub p1).isOrigin := by
  refine ⟨?_, h1⟩
  have hd := hdiv
  unfold divisor at hd
  rw [h1, mul_zero, sub_zero] at hd
  exact (mul_eq_zero.mp hd).resolve_right h2

/-- In the parallel branch (`divisor = 0`), the second axis-aligned condition
`d2.y = 0 ∧ d1.y ≠ 0` forces `d2` to be the origin. -/
theorem cond_dy2_forces_origin (p1 p2 p3 p4 : Point)
    (hdiv : divisor p1 p2 p3 p4 = 0)
    (h1 : (p4.sub p3).y = 0) (h2 : (p2.sub p1).y ≠ 0) :
    (p4.sub p3).isOrigin := by
  refine ⟨?_, h1⟩
  have hd := hdiv
  unfold divisor at hd
  rw [h1, mul_zero, zero_sub, neg_eq_zero] at hd
  exact (mul_eq_zero.mp hd).resolve_right h2

/-- In the parallel branch (`divisor = 0`), the third axis-aligned condition
`d1.x = 0 ∧ d2.x ≠ 0` forces `d1` to be the origin. -/
theorem cond_dx1_forces_origin (p1 p2 p3 p4 : Point)
    (hdiv : divisor p1 p2 p3 p4 = 0)
    (h1 : (p2.sub p1).x = 0) (h2 : (p4.sub p3).x ≠ 0) :
    (p2.sub p1).isOrigin := by
  refine ⟨h1, ?_⟩
  have hd := hdiv
  unfold divisor at hd
  rw [h1, zero_mul, zero_sub, neg_eq_zero] at hd
  exact (mul_eq_zero.mp hd).resolve_left h2

/-- In the parallel branch (`divisor = 0`), the fourth axis-aligned condition
`d2.x = 0 ∧ d1.x ≠ 0` forces `d2` to be the origin. -/
theorem cond_dx2_forces_origin (p1 p2 p3 p4 : Point)
    (hdiv : divisor p1 p2 p3 p4 = 0)
    (h1 : (p4.sub p3).x = 0) (h2 : (p2.sub p1).x ≠ 0) :
    (p4.sub p3).isOrigin := by
  refine ⟨h1, ?_⟩
  have hd := hdiv
  unfold divisor at hd
  rw [h1, zero_mul, sub_zero] at hd
  exact (mul_eq_zero.mp hd).resolve_left h2

/-- With `p2 ≠ p3` and `divisor = 0`, `findIntersection` always takes the
midpoint fallback: none of the four axis-aligned branches can fire. -/
theorem findIntersection_parallel (p1 p2 p3 p4 : Point) (hne : p2 ≠ p3)
    (hdiv : divisor p1 p2 p3 p4 = 0) :
    findIntersection p1 p2 p3 p4 = ((p2.add p3).divScalar 2, False) := by
  unfold findIntersection
  rw [if_neg hne, if_pos hdiv]
  by_cases hg : ¬ ((p2.sub p1).isOrigin ∨ (p4.sub p3).isOrigin)
  · rw [if_pos hg]
    obtain ⟨hA, hB⟩ := not_or.mp hg
    have hc1 : ¬ ((p2.sub p1).y = 0 ∧ (p4.sub p3).y ≠ 0) := by
      rintro ⟨h1, h2⟩; exact hA (cond_dy1_forces_origin p1 p2 p3 p4 hdiv h1 h2)
    have hc2 : ¬ ((p4.sub p3).y = 0 ∧ (p2.sub p1).y ≠ 0) := by
      rintro ⟨h1, h2⟩; exact hB (cond_dy2_forces_origin p1 p2 p3 p4 hdiv h1 h2)
    have hc3 : ¬ ((p2.sub p1).x = 0 ∧ (p4.sub p3).x ≠ 0) := by
      rintro ⟨h1, h2⟩; exact hA (cond_dx1_forces_origin p1 p2 p3 p4 hdiv h1 h2)
    have hc4 : ¬ ((p4.sub p3).x = 0 ∧ (p2.sub p1).x ≠ 0) := by
      rintro ⟨h1, h2⟩; exact hB (cond_dx2_forces_origin p1 p2 p3 p4 hdiv h1 h2)
    rw [if_neg hc1, if_neg hc2, if_neg hc3, if_neg hc4]
  · rw [if_neg hg]

/-- With `p2 ≠ p3` and `divisor ≠ 0`, `findIntersection` returns the
infinite-line intersection point and the conjunction of the two range
checks (the source's early `return false` on `along1` folded in). -/
theorem findIntersection_general (p1 p2 p3 p4 : Point) (hne : p2 ≠ p3)
    (hdiv : divisor p1 p2 p3 p4 ≠ 0) :
    findIntersection p1 p2 p3 p4 =
      (p1.add ((p2.sub p1).smul (along1 p1 p2 p3 p4)),
        (0 ≤ along1 p1 p2 p3 p4 ∧ along1 p1 p2 p3 p4 ≤ 1) ∧
        (0 ≤ along2 p1 p2 p3 p4 ∧ along2 p1 p2 p3 p4 ≤ 1)) := by
  unfold findIntersection
  rw [if_neg hne, if_neg hdiv]
  by_cases h : along1 p1 p2 p3 p4 < 0 ∨ 1 < along1 p1 p2 p3 p4
  · rw [if_pos h]
    simp only [Prod.mk.injEq]
    refine ⟨by trivial, ?_⟩
    have hnot : ¬ ((0 ≤ along1 p1 p2 p3 p4 ∧ along1 p1 p2 p3 p4 ≤ 1) ∧
        (0 ≤ along2 p1 p2 p3 p4 ∧ along2 p1 p2 p3 p4 ≤ 1)) := by
      rintro ⟨⟨ha, hb⟩, -⟩
      rcases h with h | h <;> linarith
    exact (eq_false hnot).symm
  · rw [if_neg h]
    simp only [Prod.mk.injEq]
    refine ⟨by trivial, ?_⟩
    push_neg at h
    exact propext ⟨fun h2 => ⟨⟨h.1, h.2⟩, h2⟩, fun hc => hc.2⟩

/-- Swapping the two segments negates the cross-product divisor. -/
theorem divisor_swap (p1 p2 p3 p4 : Point) :
    divisor p3 p4 p1 p2 = - divisor p1 p2 p3 p4 := by
  simp only [divisor, Point.sub]
  ring

/-- Swapping the two segments turns `along1` into `along2`. -/
theorem along1_swap (p1 p2 p3 p4 : Point) :
    along1 p3 p4 p1 p2 = along2 p1 p2 p3 p4 := by
  unfold along1 along2
  rw [divisor_swap p1 p2 p3 p4]
  rw [show ((p3.y - p1.y) * (p2.sub p1).x - (p3.x - p1.x) * (p2.sub p1).y)
      = -((p1.y - p3.y) * (p2.sub p1).x - (p1.x - p3.x) * (p2.sub p1).y) by ring]
  exact neg_div_neg_eq _ _

/-- Swapping the two segments turns `along2` into `along1`. -/
theorem along2_swap (p1 p2 p3 p4 : Point) :
    along2 p3 p4 p1 p2 = along1 p1 p2 p3 p4 := by
  unfold along1 along2
  rw [divisor_swap p1 p2 p3 p4]
  rw [show ((p3.y - p1.y) * (p4.sub p3).x - (p3.x - p1.x) * (p4.sub p3).y)
      = -((p1.y - p3.y) * (p4.sub p3).x - (p1.x - p3.x) * (p4.sub p3).y) by ring]
  exact neg_div_neg_eq _ _

/-- A degenerate segment has squared length zero. -/
theorem lengthSq_of_degenerate (l : Line) (h : l.start = l.«end») :
    lengthSq l = 0 := by
  simp [lengthSq, Point.sub, h]

/-- `getLength` is nonnegative. -/
theorem getLength_nonneg (l : Line) : 0 ≤ getLength l := Real.sqrt_nonneg _

/-- A segment of zero length is degenerate. -/
theorem getLength_eq_zero_imp (l : Line) (h : getLength l = 0) :
    l.start = l.«end» := by
  unfold getLength Point.getDistanceFrom at h
  have hnn : 0 ≤ (l.start.x - l.«end».x) ^ 2 + (l.start.y - l.«end».y) ^ 2 := by
    positivity
  have h2 : (l.start.x - l.«end».x) ^ 2 + (l.start.y - l.«end».y) ^ 2 = 0 :=
    (Real.sqrt_eq_zero hnn).mp h
  have hx2 : (l.start.x - l.«end».x) ^ 2 = 0 := by
    nlinarith [sq_nonneg (l.start.x - l.«end».x), sq_nonneg (l.start.y - l.«end».y)]
  have hy2 : (l.start.y - l.«end».y) ^ 2 = 0 := by
    nlinarith [sq_nonneg (l.start.x - l.«end».x), sq_nonneg (l.start.y - l.«end».y)]
  have hx : l.start.x - l.«end».x = 0 := by
    exact (pow_eq_zero_iff two_ne_zero).mp hx2
  have hy : l.start.y - l.«end».y = 0 := by
    exact (pow_eq_zero_iff two_ne_zero).mp hy2
  ext
  · linarith
  · linarith

/-- C8: for every two segments (p1,p2) and (p3,p4) with p2 = p3 (shared
endpoint), `findIntersection` returns that shared point and reports
intersecting, before any other case analysis. -/
theorem C8_shared_endpoint (p1 p2 p3 p4 : Point) (h : p2 = p3) :
    findIntersection p1 p2 p3 p4 = (p2, True) := by
  unfold findIntersection
  rw [if_pos h]

/-- Witness for C8 at p1 = (0,0), p2 = p3 = (1,2), p4 = (5,5). -/
theorem C8_shared_endpoint_witness :
    findIntersection ⟨0, 0⟩ ⟨1, 2⟩ ⟨1, 2⟩ ⟨5, 5⟩ = (⟨1, 2⟩, True) :=
  C8_shared_endpoint ⟨0, 0⟩ ⟨1, 2⟩ ⟨1, 2⟩ ⟨5, 5⟩ rfl

/-- C5: in exact arithmetic, for p2 ≠ p3 with zero cross product
(divisor = 0), `findIntersection` always returns false with the midpoint of
p2 and p3: each axis-aligned special-case condition would force the
corresponding direction vector to be the zero vector, which the isOrigin
guard excludes, so those branches can never return. -/
theorem C5_parallel_midpoint_fallback (p1 p2 p3 p4 : Point) (hne : p2 ≠ p3)
    (hdiv : divisor p1 p2 p3 p4 = 0) :
    findIntersection p1 p2 p3 p4 = ((p2.add p3).divScalar 2, False) ∧
    (((p2.sub p1).y = 0 ∧ (p4.sub p3).y ≠ 0) → (p2.sub p1).isOrigin) ∧
    (((p4.sub p3).y = 0 ∧ (p2.sub p1).y ≠ 0) → (p4.sub p3).isOrigin) ∧
    (((p2.sub p1).x = 0 ∧ (p4.sub p3).x ≠ 0) → (p2.sub p1).isOrigin) ∧
    (((p4.sub p3).x = 0 ∧ (p2.sub p1).x ≠ 0) → (p4.sub p3).isOrigin) := by
  refine ⟨findIntersection_parallel p1 p2 p3 p4 hne hdiv, ?_, ?_, ?_, ?_⟩
  · rintro ⟨h1, h2⟩; exact cond_dy1_forces_origin p1 p2 p3 p4 hdiv h1 h2
  · rintro ⟨h1, h2⟩; exact cond_dy2_forces_origin p1 p2 p3 p4 hdiv h1 h2
  · rintro ⟨h1, h2⟩; exact cond_dx1_forces_origin p1 p2 p3 p4 hdiv h1 h2
  · rintro ⟨h1, h2⟩; exact cond_dx2_forces_origin p1 p2 p3 p4 hdiv h1 h2

/-- Witness for C5 on the parallel diagonal segments ((0,0),(1,1)) and
((0,2),(1,3)): the result is the midpoint of (1,1) and (0,2) with false. -/
theorem C5_parallel_midpoint_fallback_witness :
    findIntersection ⟨0, 0⟩ ⟨1, 1⟩ ⟨0, 2⟩ ⟨1, 3⟩ = (⟨1 / 2, 3 / 2⟩, False) := by
  have h := (C5_parallel_midpoint_fallback ⟨0, 0⟩ ⟨1, 1⟩ ⟨0, 2⟩ ⟨1, 3⟩
      (by norm_num [Point.mk.injEq])
      (by norm_num [divisor, Point.sub])).1
  rw [h]
  norm_num [Point.add, Point.divScalar, Prod.mk.injEq, Point.mk.injEq]

/-- C4: with p2 ≠ p3, divisor = 0, and no axis-aligned special case
applying, `findIntersection` reports non-intersecting and returns the
midpoint of p2 and p3 as the deterministic fallback point. -/
theorem C4_parallel_no_axis_fallback (p1 p2 p3 p4 : Point) (hne : p2 ≠ p3)
    (hdiv : divisor p1 p2 p3 p4 = 0)
    (_hnoaxis : ¬ (((p2.sub p1).y = 0 ∧ (p4.sub p3).y ≠ 0) ∨
        ((p4.sub p3).y = 0 ∧ (p2.sub p1).y ≠ 0) ∨
        ((p2.sub p1).x = 0 ∧ (p4.sub p3).x ≠ 0) ∨
        ((p4.sub p3).x = 0 ∧ (p2.sub p1).x ≠ 0))) :
    findIntersection p1 p2 p3 p4 = ((p2.add p3).divScalar 2, False) :=
  findIntersection_parallel p1 p2 p3 p4 hne hdiv

/-- Witness for C4 on the two parallel horizontal segments ((0,0),(10,0))
and ((0,5),(10,5)): boolean false, point (5, 2.5). -/
theorem C4_parallel_no_axis_fallback_witness :
    findIntersection ⟨0, 0⟩ ⟨10, 0⟩ ⟨0, 5⟩ ⟨10, 5⟩ = (⟨5, 5 / 2⟩, False) := by
  have h := C4_parallel_no_axis_fallback ⟨0, 0⟩ ⟨10, 0⟩ ⟨0, 5⟩ ⟨10, 5⟩
      (by norm_num [Point.mk.injEq])
      (by norm_num [divisor, Point.sub])
      (by norm_num [Point.sub])
  rw [h]
  norm_num [Point.add, Point.divScalar, Prod.mk.injEq, Point.mk.injEq]

/-- C1: in the general case (p2 ≠ p3 and divisor ≠ 0), `findIntersection`
returns the point p1 + d1·along1 — which solves the 2×2 linear system, i.e.
equals p3 + d2·along2 — regardless of whether it lies within either
segment, and the boolean is true iff both along1 and along2 lie in [0,1]. -/
theorem C1_general_case (p1 p2 p3 p4 : Point) (hne : p2 ≠ p3)
    (hdiv : divisor p1 p2 p3 p4 ≠ 0) :
    (findIntersection p1 p2 p3 p4).1
        = p1.add ((p2.sub p1).smul (along1 p1 p2 p3 p4)) ∧
    ((findIntersection p1 p2 p3 p4).2 ↔
        (0 ≤ along1 p1 p2 p3 p4 ∧ along1 p1 p2 p3 p4 ≤ 1) ∧
        (0 ≤ along2 p1 p2 p3 p4 ∧ along2 p1 p2 p3 p4 ≤ 1)) ∧
    p1.add ((p2.sub p1).smul (along1 p1 p2 p3 p4))
        = p3.add ((p4.sub p3).smul (along2 p1 p2 p3 p4)) := by
  have hd : (p2.x - p1.x) * (p4.y - p3.y) - (p4.x - p3.x) * (p2.y - p1.y) ≠ 0 := by
    simpa [divisor, Point.sub] using hdiv
  refine ⟨?_, ?_, ?_⟩
  · rw [findIntersection_general p1 p2 p3 p4 hne hdiv]
  · rw [findIntersection_general p1 p2 p3 p4 hne hdiv]
  · ext
    · simp only [Point.add, Point.smul, Point.sub, along1, along2, divisor]
      field_simp
      ring
    · simp only [Point.add, Point.smul, Point.sub, along1, along2, divisor]
      field_simp
      ring

/-- Witness for C1 at Segment((0,0),(10,0)) and Segment((20,-5),(20,5)):
the returned point is (20,0) although the boolean is false. -/
theorem C1_general_case_witness :
    (findIntersection ⟨0, 0⟩ ⟨10, 0⟩ ⟨20, -5⟩ ⟨20, 5⟩).1 = ⟨20, 0⟩ ∧
    ¬ (findIntersection ⟨0, 0⟩ ⟨10, 0⟩ ⟨20, -5⟩ ⟨20, 5⟩).2 := by
  obtain ⟨h1, h2, h3⟩ := C1_general_case ⟨0, 0⟩ ⟨10, 0⟩ ⟨20, -5⟩ ⟨20, 5⟩
      (by norm_num [Point.mk.injEq])
      (by norm_num [divisor, Point.sub])
  have ha1 : along1 ⟨0, 0⟩ ⟨10, 0⟩ ⟨20, -5⟩ ⟨20, 5⟩ = 2 := by
    norm_num [along1, divisor, Point.sub]
  constructor
  · rw [h1, ha1]
    norm_num [Point.add, Point.smul, Point.sub, Point.mk.injEq]
  · rw [h2]
    rintro ⟨⟨-, hb⟩, -⟩
    rw [ha1] at hb
    norm_num at hb

/-- C3 is false as stated: the segments ((0,0),(1,0)) and ((1,0),(2,0))
share the endpoint p2 = p3, so the forward call reports intersecting, while
the swapped call has divisor = 0 and lands in the degenerate-parallel
midpoint branch, reporting non-intersecting. -/
theorem C3_symmetry_counterexample :
    (findIntersection ⟨0, 0⟩ ⟨1, 0⟩ ⟨1, 0⟩ ⟨2, 0⟩).2 ∧
    ¬ (findIntersection ⟨1, 0⟩ ⟨2, 0⟩ ⟨0, 0⟩ ⟨1, 0⟩).2 := by
  constructor
  · unfold findIntersection
    rw [if_pos rfl]
    trivial
  · rw [findIntersection_parallel ⟨1, 0⟩ ⟨2, 0⟩ ⟨0, 0⟩ ⟨1, 0⟩
        (by norm_num [Point.mk.injEq]) (by norm_num [divisor, Point.sub])]
    exact fun h => h

/-- C3 amended: for segments with p2 ≠ p3 and p4 ≠ p1 (so that the
shared-endpoint shortcut fires in neither argument order),
`findIntersection` and the swapped call report the same boolean outcome. -/
theorem C3_symmetry_amended (p1 p2 p3 p4 : Point)
    (h23 : p2 ≠ p3) (h41 : p4 ≠ p1) :
    ((findIntersection p1 p2 p3 p4).2 ↔ (findIntersection p3 p4 p1 p2).2) := by
  by_cases hd : divisor p1 p2 p3 p4 = 0
  · have hd2 : divisor p3 p4 p1 p2 = 0 := by
      rw [divisor_swap, hd, neg_zero]
    rw [findIntersection_parallel p1 p2 p3 p4 h23 hd,
        findIntersection_parallel p3 p4 p1 p2 h41 hd2]
  · have hd2 : divisor p3 p4 p1 p2 ≠ 0 := by
      rw [divisor_swap]; exact neg_ne_zero.mpr hd
    rw [findIntersection_general p1 p2 p3 p4 h23 hd,
        findIntersection_general p3 p4 p1 p2 h41 hd2,
        along1_swap p1 p2 p3 p4, along2_swap p1 p2 p3 p4]
    exact and_comm

/-- Witness for the amended C3 at Segment((0,0),(10,0)) and
Segment((5,-5),(5,5)). -/
theorem C3_symmetry_amended_witness :
    ((findIntersection ⟨0, 0⟩ ⟨10, 0⟩ ⟨5, -5⟩ ⟨5, 5⟩).2 ↔
      (findIntersection ⟨5, -5⟩ ⟨5, 5⟩ ⟨0, 0⟩ ⟨10, 0⟩).2) :=
  C3_symmetry_amended ⟨0, 0⟩ ⟨10, 0⟩ ⟨5, -5⟩ ⟨5, 5⟩
    (by norm_num [Point.mk.injEq]) (by norm_num [Point.mk.injEq])

/-- C6: `getDistanceFromPoint` computes the projection fraction; for a
nondegenerate segment with fraction in [0,1] it returns the projection
point and the distance from the target to it; otherwise (including the
degenerate case, which falls through) it returns whichever endpoint is
closer to the target by straight-line distance, with that distance. -/
theorem C6_getDistanceFromPoint (l : Line) (p : Point) :
    (0 < lengthSq l → 0 ≤ prop l p → prop l p ≤ 1 →
      getDistanceFromPoint l p =
        (p.getDistanceFrom (l.start.add ((l.«end».sub l.start).smul (prop l p))),
         l.start.add ((l.«end».sub l.start).smul (prop l p)))) ∧
    (¬ (0 < lengthSq l ∧ 0 ≤ prop l p ∧ prop l p ≤ 1) →
      (getDistanceFromPoint l p).1
          = min (p.getDistanceFrom l.start) (p.getDistanceFrom l.«end») ∧
      ((getDistanceFromPoint l p).2 = l.start ∨ (getDistanceFromPoint l p).2 = l.«end») ∧
      p.getDistanceFrom (getDistanceFromPoint l p).2 = (getDistanceFromPoint l p).1) := by
  constructor
  · intro h0 ht0 ht1
    unfold getDistanceFromPoint
    rw [if_pos h0, if_pos ⟨ht0, ht1⟩]
  · intro hno
    have hfall : ∀ q : ℝ × Point,
        q = (if p.getDistanceFrom l.start < p.getDistanceFrom l.«end» then
              (p.getDistanceFrom l.start, l.start)
            else (p.getDistanceFrom l.«end», l.«end»)) →
        q.1 = min (p.getDistanceFrom l.start) (p.getDistanceFrom l.«end») ∧
        (q.2 = l.start ∨ q.2 = l.«end») ∧ p.getDistanceFrom q.2 = q.1 := by
      intro q hq
      by_cases hlt : p.getDistanceFrom l.start < p.getDistanceFrom l.«end»
      · rw [hq, if_pos hlt]
        exact ⟨(min_eq_left hlt.le).symm, Or.inl rfl, rfl⟩
      · rw [hq, if_neg hlt]
        exact ⟨(min_eq_right (not_lt.mp hlt)).symm, Or.inr rfl, rfl⟩
    by_cases h0 : 0 < lengthSq l
    · have hprop : ¬ (0 ≤ prop l p ∧ prop l p ≤ 1) := fun hc => hno ⟨h0, hc⟩
      apply hfall
      unfold getDistanceFromPoint
      rw [if_pos h0, if_neg hprop]
    · apply hfall
      unfold getDistanceFromPoint
      rw [if_neg h0]

/-- Witness for C6 at Segment((0,0),(10,0)) and point (5,5): distance 5 and
nearest point (5,0). -/
theorem C6_getDistanceFromPoint_witness :
    getDistanceFromPoint ⟨⟨0, 0⟩, ⟨10, 0⟩⟩ ⟨5, 5⟩ = (5, ⟨5, 0⟩) := by
  have h0 : (0:ℝ) < lengthSq ⟨⟨0, 0⟩, ⟨10, 0⟩⟩ := by
    norm_num [lengthSq, Point.sub]
  have hp : prop ⟨⟨0, 0⟩, ⟨10, 0⟩⟩ ⟨5, 5⟩ = 1 / 2 := by
    norm_num [prop, lengthSq, Point.sub]
  have h := (C6_getDistanceFromPoint ⟨⟨0, 0⟩, ⟨10, 0⟩⟩ ⟨5, 5⟩).1 h0
      (by rw [hp]; norm_num) (by rw [hp]; norm_num)
  rw [h, hp]
  have hpt : (⟨⟨0, 0⟩, ⟨10, 0⟩⟩ : Line).start.add
      (((⟨⟨0, 0⟩, ⟨10, 0⟩⟩ : Line).«end».sub
        (⟨⟨0, 0⟩, ⟨10, 0⟩⟩ : Line).start).smul (1 / 2)) = (⟨5, 0⟩ : Point) := by
    norm_num [Point.add, Point.sub, Point.smul, Point.mk.injEq]
  rw [hpt]
  have hdist : (⟨5, 5⟩ : Point).getDistanceFrom ⟨5, 0⟩ = 5 := by
    unfold Point.getDistanceFrom
    norm_num
    rw [show (25:ℝ) = 5 ^ 2 by norm_num]
    exact Real.sqrt_sq (by norm_num)
  rw [hdist]

/-- C7: `findNearestProportionalPositionTo` always lies in [0,1]; for a
nondegenerate segment it is the projection fraction clamped to [0,1], and
for a degenerate segment it is 0 regardless of the point. -/
theorem C7_findNearestProportionalPositionTo (l : Line) (p : Point) :
    0 ≤ findNearestProportionalPositionTo l p ∧
    findNearestProportionalPositionTo l p ≤ 1 ∧
    (¬ lengthSq l ≤ 0 →
      findNearestProportionalPositionTo l p = max 0 (min 1 (prop l p))) ∧
    (l.start = l.«end» → findNearestProportionalPositionTo l p = 0) := by
  unfold findNearestProportionalPositionTo
  by_cases h : lengthSq l ≤ 0
  · rw [if_pos h]
    exact ⟨le_refl 0, zero_le_one, fun hc => absurd h hc, fun _ => rfl⟩
  · rw [if_neg h]
    unfold jlimit
    have hdeg : ¬ l.start = l.«end» := by
      intro he
      exact h (le_of_eq (lengthSq_of_degenerate l he))
    by_cases h1 : prop l p < 0
    · rw [if_pos h1]
      refine ⟨le_refl 0, zero_le_one, fun _ => ?_, fun he => absurd he hdeg⟩
      rw [min_eq_right (le_of_lt (lt_of_lt_of_le h1 zero_le_one)),
          max_eq_left (le_of_lt h1)]
    · rw [if_neg h1]
      by_cases h2 : 1 < prop l p
      · rw [if_pos h2]
        refine ⟨zero_le_one, le_refl 1, fun _ => ?_, fun he => absurd he hdeg⟩
        rw [min_eq_left (le_of_lt h2), max_eq_right zero_le_one]
      · rw [if_neg h2]
        refine ⟨not_lt.mp h1, not_lt.mp h2, fun _ => ?_, fun he => absurd he hdeg⟩
        rw [min_eq_right (not_lt.mp h2), max_eq_right (not_lt.mp h1)]

/-- Witness for C7: the degenerate segment ((3,3),(3,3)) yields 0, and a
far-away point on ((0,0),(10,0)) stays clamped to [0,1]. -/
theorem C7_findNearestProportionalPositionTo_witness :
    findNearestProportionalPositionTo ⟨⟨3, 3⟩, ⟨3, 3⟩⟩ ⟨7, 2⟩ = 0 ∧
    0 ≤ findNearestProportionalPositionTo ⟨⟨0, 0⟩, ⟨10, 0⟩⟩ ⟨99, 1⟩ ∧
    findNearestProportionalPositionTo ⟨⟨0, 0⟩, ⟨10, 0⟩⟩ ⟨99, 1⟩ ≤ 1 :=
  ⟨(C7_findNearestProportionalPositionTo ⟨⟨3, 3⟩, ⟨3, 3⟩⟩ ⟨7, 2⟩).2.2.2 rfl,
   (C7_findNearestProportionalPositionTo ⟨⟨0, 0⟩, ⟨10, 0⟩⟩ ⟨99, 1⟩).1,
   (C7_findNearestProportionalPositionTo ⟨⟨0, 0⟩, ⟨10, 0⟩⟩ ⟨99, 1⟩).2.1⟩

/-- C10: `isPointAbove` holds iff the segment is not vertical and p.y is
strictly below the interpolated line y-value at p.x; it never holds for a
vertical segment, and for a non-vertical segment the code's expression
agrees with the (Δy/Δx)·(p.x − start.x) + start.y interpolation form. -/
theorem C10_isPointAbove (l : Line) (p : Point) :
    (isPointAbove l p ↔ (l.start.x ≠ l.«end».x ∧
      p.y < ((l.«end».y - l.start.y) * (p.x - l.start.x))
          / (l.«end».x - l.start.x) + l.start.y)) ∧
    (l.start.x = l.«end».x → ¬ isPointAbove l p) ∧
    (l.start.x ≠ l.«end».x → (isPointAbove l p ↔
      p.y < (l.«end».y - l.start.y) / (l.«end».x - l.start.x)
          * (p.x - l.start.x) + l.start.y)) := by
  refine ⟨Iff.rfl, ?_, ?_⟩
  · intro h hab
    exact hab.1 h
  · intro hne
    unfold isPointAbove
    rw [div_mul_eq_mul_div]
    exact ⟨fun h => h.2, fun h => ⟨hne, h⟩⟩

/-- Witness for C10: a point below a horizontal segment is "above" it in
screen coordinates, and no point is above a vertical segment. -/
theorem C10_isPointAbove_witness :
    isPointAbove ⟨⟨0, 0⟩, ⟨10, 0⟩⟩ ⟨5, -1⟩ ∧
    ¬ isPointAbove ⟨⟨2, 0⟩, ⟨2, 9⟩⟩ ⟨0, -7⟩ := by
  constructor
  · exact (C10_isPointAbove ⟨⟨0, 0⟩, ⟨10, 0⟩⟩ ⟨5, -1⟩).1.mpr (by norm_num)
  · exact (C10_isPointAbove ⟨⟨2, 0⟩, ⟨2, 9⟩⟩ ⟨0, -7⟩).2.1 rfl

/-- C9: on segments of nonzero length, `withShortenedStart 0` returns a
segment equal to the original, `withShortenedStart (getLength)` collapses
start onto end, and for every d the shortening distance is capped at the
current length, so any d beyond the length yields the same segment as
shortening by the length itself. Nonzero length is required: on a
degenerate segment `withShortenedStart` routes through the unguarded
division `distanceFromStart / getLength()` of the one-argument
`getPointAlongLine` (the slip recorded with C2), which in the program's
float arithmetic is 0.0/0.0. -/
theorem C9_withShortenedStart_nondegenerate (l : Line) (h0 : getLength l ≠ 0) :
    withShortenedStart l 0 = l ∧
    (withShortenedStart l (getLength l)).start
        = (withShortenedStart l (getLength l)).«end» ∧
    (∀ d : ℝ, getLength l ≤ d →
      withShortenedStart l d = withShortenedStart l (getLength l)) := by
  have hL : 0 ≤ getLength l := getLength_nonneg l
  have hmin2 : jmin (getLength l) (getLength l) = getLength l := by
    unfold jmin
    rw [if_neg (lt_irrefl _)]
  refine ⟨?_, ?_, ?_⟩
  · have hmin : jmin 0 (getLength l) = 0 := by
      unfold jmin
      rw [if_neg (not_lt.mpr hL)]
    have hp : getPointAlongLine l 0 = l.start := by
      unfold getPointAlongLine
      ext <;> simp [Point.add, Point.smul, Point.sub]
    unfold withShortenedStart
    rw [hmin, hp]
  · unfold withShortenedStart
    rw [hmin2]
    show getPointAlongLine l (getLength l) = l.«end»
    unfold getPointAlongLine
    rw [div_self h0]
    ext <;> simp [Point.add, Point.smul, Point.sub]
  · intro d hd
    unfold withShortenedStart
    have hmin : jmin d (getLength l) = getLength l := by
      unfold jmin
      by_cases hlt : getLength l < d
      · rw [if_pos hlt]
      · rw [if_neg hlt]
        exact le_antisymm (not_lt.mp hlt) hd
    rw [hmin, hmin2]

/-- Witness for C9 on Segment((0,0),(3,4)) of length 5, shortened by 7. -/
theorem C9_withShortenedStart_nondegenerate_witness :
    withShortenedStart ⟨⟨0, 0⟩, ⟨3, 4⟩⟩ 0 = ⟨⟨0, 0⟩, ⟨3, 4⟩⟩ ∧
    withShortenedStart ⟨⟨0, 0⟩, ⟨3, 4⟩⟩ 7
        = withShortenedStart ⟨⟨0, 0⟩, ⟨3, 4⟩⟩ (getLength ⟨⟨0, 0⟩, ⟨3, 4⟩⟩) := by
  have h5 : getLength ⟨⟨0, 0⟩, ⟨3, 4⟩⟩ = 5 := by
    unfold getLength Point.getDistanceFrom
    norm_num
    rw [show (25:ℝ) = 5 ^ 2 by norm_num]
    exact Real.sqrt_sq (by norm_num)
  obtain ⟨h1, h2, h3⟩ := C9_withShortenedStart_nondegenerate ⟨⟨0, 0⟩, ⟨3, 4⟩⟩
      (by rw [h5]; norm_num)
  refine ⟨h1, h3 7 ?_⟩
  rw [h5]
  norm_num

/-- C2: the degenerate segment ((3,3),(3,3)) has length 0, so the division
`distanceFromStart / getLength()` in the one-argument `getPointAlongLine`
(which, unlike the two-argument overload, has no degenerate branch) is a
division by zero; the guarded two-argument overload returns `start`. -/
theorem C2_degenerate_length_zero :
    getLength ⟨⟨3, 3⟩, ⟨3, 3⟩⟩ = 0 ∧
    getPointAlongLinePerpendicular ⟨⟨3, 3⟩, ⟨3, 3⟩⟩ 5 0 = ⟨3, 3⟩ := by
  constructor
  · unfold getLength Point.getDistanceFrom
    norm_num
  · norm_num [getPointAlongLinePerpendicular, Point.sub]

end JuceGeometry
